import Mathlib

/-!
Shallow embedding of the rsdsl/ntp daemon (src/main.rs) and proofs about
its clock-synchronization core: the persisted-floor store, the
era-disambiguation loop, and the orchestration loop around them.

Modelling conventions:
* Rust `i64` values are Lean `Int`; the 32-bit NTP seconds field is a `Nat`
  reduced modulo `2^32` where the source treats it as `u32`.
* The persisted file is `Option (List Nat)`: `none` means `fs::read`
  failed (file missing or unreadable), `some bytes` is its raw content.
* A Rust panic (out-of-bounds slice index) is `Except.error ()`.
* Network and OS effects that can fail are driven by explicit boolean
  oracles (`resolveOk`, `queryOk`, `clockOk`, `writeOk`) carried by the
  event that triggers the cycle.
* The era-correction loop's accumulator is an `i64` in the source, so
  `t += 2_i64.pow(32)` can overflow (two's-complement wrap in a release
  build, panic in a debug build).  `wrap64` and the fuel-indexed
  `eraLoopFuel` model the wrapping loop faithfully, including the floors
  (above `2^63 - 2^32`) where it never exits; the unbounded-`Int`
  `eraLoop` is the loop's value on inputs where no wrap occurs, and
  `eraLoopFuel_agrees` proves the two coincide exactly there.
-/

namespace Ntp

/-- `const EPOCH_OFFSET: i64 = 2208988800;` (main.rs line 17). -/
def EPOCH_OFFSET : Int := 2208988800

/-- `const INITIAL_INTERVAL: Duration = Duration::from_secs(30);` (line 22). -/
def INITIAL_INTERVAL : Nat := 30

/-- `const INTERVAL: Duration = Duration::from_secs(3600);` (line 23). -/
def INTERVAL : Nat := 3600

/-- Rust `i64::to_be_bytes`: the eight big-endian bytes of the two's
complement representation of `t` (an `i64` value). -/
def i64_to_be_bytes (t : Int) : List Nat :=
  [(t % 2^64).toNat / 2^56 % 256,
   (t % 2^64).toNat / 2^48 % 256,
   (t % 2^64).toNat / 2^40 % 256,
   (t % 2^64).toNat / 2^32 % 256,
   (t % 2^64).toNat / 2^24 % 256,
   (t % 2^64).toNat / 2^16 % 256,
   (t % 2^64).toNat / 2^8 % 256,
   (t % 2^64).toNat % 256]

/-- Rust `i64::from_be_bytes`: reassemble the big-endian bytes and
reinterpret the resulting unsigned value in two's complement. -/
def i64_from_be_bytes (bs : List Nat) : Int :=
  if (bs.foldl (fun acc b => acc * 256 + b) 0 : Nat) < 2^63
  then ((bs.foldl (fun acc b => acc * 256 + b) 0 : Nat) : Int)
  else ((bs.foldl (fun acc b => acc * 256 + b) 0 : Nat) : Int) - 2^64

/-- `last_time_unix` (main.rs lines 94-98):
`Some(i64::from_be_bytes(fs::read(LAST_UNIX_PATH).await.ok()?[..8].try_into().ok()?))`.
`file = none` models a failed `fs::read` (missing/unreadable file), which the
`.ok()?` turns into `None`.  When the read succeeds, the slice `[..8]`
panics if fewer than 8 bytes were read (`Except.error ()`); otherwise the
first 8 bytes are decoded.  (`try_into` on an exactly-8-byte slice cannot
fail, so the second `.ok()?` never yields `None` on this path.) -/
def last_time_unix (file : Option (List Nat)) : Except Unit (Option Int) :=
  match file with
  | none => Except.ok none
  | some bytes =>
    if bytes.length < 8 then Except.error ()
    else Except.ok (some (i64_from_be_bytes (bytes.take 8)))

/-- The floor selection at the start of `sync_time` (main.rs lines 120-122):
`last_time_unix().await.unwrap_or(DateTime::parse_from_rfc3339(env!("SOURCE_TIMESTAMP"))?.timestamp())`.
`buildTs` is the already-parsed build timestamp; a panic inside
`last_time_unix` propagates. -/
def sync_floor (buildTs : Int) (file : Option (List Nat)) : Except Unit Int :=
  match last_time_unix file with
  | Except.error _ => Except.error ()
  | Except.ok (some t) => Except.ok t
  | Except.ok none => Except.ok buildTs

/-- Two's-complement wrap of an integer into the `i64` range
`[-2^63, 2^63)`: the value of a Rust `i64` addition that overflowed in a
release build. -/
def wrap64 (x : Int) : Int :=
  (x + 2^63) % 2^64 - 2^63

/-- The era-correction loop of `sync_time` (main.rs lines 130-132),
`while t < last { t += 2_i64.pow(32); }`, modelled faithfully on the `i64`
accumulator: `eraLoopFuel n t floor` runs at most `n` additions, each
wrapped into the `i64` range by `wrap64` (release-build semantics; a debug
build would panic at the first wrap instead).  `none` means the loop is
still running after `n` additions — for floors so large that no `i64`
congruent to `t` reaches them, every fuel returns `none` and the release
binary loops forever. -/
def eraLoopFuel : Nat → Int → Int → Option Int
  | 0, t, floor => if t < floor then none else some t
  | n + 1, t, floor =>
    if t < floor then eraLoopFuel n (wrap64 (t + 2^32)) floor else some t

/-- The era-correction loop idealized over unbounded integers: the value
the `i64` loop of main.rs lines 130-132 computes whenever no addition
overflows.  `eraLoopFuel_agrees` proves this coincides with the wrapping
model for every floor at most `2^63 - 2^32`; above that the real loop can
fail to return at all (see `eraLoopFuel_stuck`), which this idealization
does not capture. -/
def eraLoop (t floor : Int) : Int :=
  if h : t < floor then eraLoop (t + 2^32) floor else t
termination_by (floor - t).toNat
decreasing_by
  simp_wf
  omega

/-- Unfolding the era loop when no correction is needed. -/
lemma eraLoop_of_not_lt {t floor : Int} (h : ¬ t < floor) : eraLoop t floor = t := by
  unfold eraLoop
  simp [h]

/-- Unfolding the era loop when a correction step runs. -/
lemma eraLoop_of_lt {t floor : Int} (h : t < floor) :
    eraLoop t floor = eraLoop (t + 2^32) floor := by
  conv_lhs => unfold eraLoop
  simp [h]

/-- The era loop's result is never below the floor. -/
lemma floor_le_eraLoop (t floor : Int) : floor ≤ eraLoop t floor := by
  induction t, floor using eraLoop.induct with
  | case1 t floor h ih =>
    rw [eraLoop_of_lt h]
    exact ih
  | case2 t floor h =>
    rw [eraLoop_of_not_lt h]
    omega

/-- The era loop preserves the residue modulo `2^32`. -/
lemma eraLoop_mod (t floor : Int) : eraLoop t floor % 2^32 = t % 2^32 := by
  induction t, floor using eraLoop.induct with
  | case1 t floor h ih =>
    rw [eraLoop_of_lt h]
    omega
  | case2 t floor h =>
    rw [eraLoop_of_not_lt h]

/-- When at least one correction step runs, the result stays within one era
width of the floor. -/
lemma eraLoop_lt_of_lt {t floor : Int} (h : t < floor) :
    eraLoop t floor < floor + 2^32 := by
  induction t, floor using eraLoop.induct with
  | case1 t floor h1 ih =>
    rw [eraLoop_of_lt h1]
    by_cases h2 : t + 2^32 < floor
    · exact ih h2
    · rw [eraLoop_of_not_lt h2]
      omega
  | case2 t floor h1 => omega

/-- `wrap64` lands in the `i64` range. -/
lemma wrap64_range (x : Int) : -(2:Int)^63 ≤ wrap64 x ∧ wrap64 x < 2^63 := by
  unfold wrap64
  omega

/-- `wrap64` preserves the residue modulo `2^32` (it shifts by a multiple
of `2^64`). -/
lemma wrap64_mod (x : Int) : wrap64 x % 2^32 = x % 2^32 := by
  unfold wrap64
  omega

/-- `wrap64` is the identity on values already in the `i64` range. -/
lemma wrap64_eq (x : Int) (h1 : -(2:Int)^63 ≤ x) (h2 : x < 2^63) :
    wrap64 x = x := by
  unfold wrap64
  omega

/-- `wrap64` never increases a value that is at least `-2^63`. -/
lemma wrap64_le (x : Int) (h : -(2:Int)^63 ≤ x) : wrap64 x ≤ x := by
  unfold wrap64
  omega

/-- The wrapping loop exits immediately, with any fuel, once the
accumulator has reached the floor. -/
lemma eraLoopFuel_exit (n : Nat) (t floor : Int) (h : ¬ t < floor) :
    eraLoopFuel n t floor = some t := by
  cases n with
  | zero =>
    unfold eraLoopFuel
    rw [if_neg h]
  | succ m =>
    unfold eraLoopFuel
    rw [if_neg h]

/-- For floors at most `2^63 - 2^32`, no addition ever wraps, so the
wrapping `i64` loop terminates and computes exactly the idealized
`eraLoop` value. -/
lemma eraLoopFuel_agrees (t floor : Int) :
    -(2:Int)^63 ≤ t → floor ≤ 2^63 - 2^32 →
    ∃ n, eraLoopFuel n t floor = some (eraLoop t floor) := by
  induction t, floor using eraLoop.induct with
  | case1 t floor h ih =>
    intro ht hf
    have hw : wrap64 (t + 2^32) = t + 2^32 :=
      wrap64_eq (t + 2^32) (by omega) (by omega)
    obtain ⟨n, hn⟩ := ih (by omega) hf
    refine ⟨n + 1, ?_⟩
    rw [eraLoop_of_lt h]
    unfold eraLoopFuel
    rw [if_pos h, hw]
    exact hn
  | case2 t floor h =>
    intro _ _
    exact ⟨0, by rw [eraLoopFuel_exit 0 t floor h, eraLoop_of_not_lt h]⟩

/-- Any result the wrapping loop yields after at least one correction step
lies in the window `[floor, floor + 2^32)`. -/
lemma eraLoopFuel_bounds :
    ∀ (n : Nat) (t floor r : Int), -(2:Int)^63 ≤ t → t < floor →
      eraLoopFuel n t floor = some r → floor ≤ r ∧ r - floor < 2^32 := by
  intro n
  induction n with
  | zero =>
    intro t floor r ht hlt h
    unfold eraLoopFuel at h
    rw [if_pos hlt] at h
    simp at h
  | succ m ih =>
    intro t floor r ht hlt h
    unfold eraLoopFuel at h
    rw [if_pos hlt] at h
    by_cases h2 : wrap64 (t + 2^32) < floor
    · exact ih _ _ _ (wrap64_range _).1 h2 h
    · rw [eraLoopFuel_exit m _ _ h2] at h
      have hr : wrap64 (t + 2^32) = r := by injection h
      have hle := wrap64_le (t + 2^32) (by omega)
      omega

/-- When the floor exceeds every `i64` value congruent to the starting
accumulator (i.e. `2^63 - 2^32 + t % 2^32 < floor`), the wrapping loop
never exits: the loop condition holds at every reachable value, so every
fuel returns `none` — the release binary spins forever (a debug build
panics at the first overflowing addition). -/
lemma eraLoopFuel_stuck :
    ∀ (n : Nat) (t floor : Int), -(2:Int)^63 ≤ t → t < 2^63 →
      2^63 - 2^32 + t % 2^32 < floor → eraLoopFuel n t floor = none := by
  intro n
  induction n with
  | zero =>
    intro t floor ht1 ht2 hf
    unfold eraLoopFuel
    rw [if_pos (by omega)]
  | succ m ih =>
    intro t floor ht1 ht2 hf
    unfold eraLoopFuel
    rw [if_pos (by omega)]
    refine ih _ _ (wrap64_range _).1 (wrap64_range _).2 ?_
    rw [wrap64_mod]
    omega

/-- The era disambiguator of `sync_time` (main.rs lines 129-132):
`let mut t = time.sec as i64 - EPOCH_OFFSET; while t < last { t += 2_i64.pow(32); }`.
`raw` is the `u32` transmit-timestamp seconds field, hence the `% 2^32`. -/
def disambiguate (raw : Nat) (floor : Int) : Int :=
  eraLoop (((raw % 2^32 : Nat) : Int) - EPOCH_OFFSET) floor

/-- Outcome oracles for the fallible external calls made by one sync cycle
(main.rs lines 124-137): DNS resolution, the NTP request (whose reply
carries the `u32` seconds field `raw`), `clock_settime`, and `fs::write`. -/
structure NetInput where
  resolveOk : Bool
  queryOk : Bool
  raw : Nat
  clockOk : Bool
  writeOk : Bool

/-- Result of one `sync_time` call: a panic (out-of-bounds slice in
`last_time_unix`), an error returned to the caller, or success with the
committed time. -/
inductive SyncOut where
  | panic : SyncOut
  | err : SyncOut
  | ok : Int → SyncOut
deriving DecidableEq

/-- `sync_time` (main.rs lines 119-141).  Returns the outcome, the file
contents afterwards, and the value committed to the OS clock (if
`clock_settime` was reached and succeeded).  Steps in source order:
read the floor (line 120-122, may panic), parse the DNS constant (always
succeeds), resolve (line 125), query (line 127), disambiguate (lines
129-132), `clock_settime` (lines 134-135), `fs::write` (line 137). -/
def sync_time (buildTs : Int) (file : Option (List Nat)) (net : NetInput) :
    SyncOut × Option (List Nat) × Option Int :=
  match sync_floor buildTs file with
  | Except.error _ => (SyncOut.panic, file, none)
  | Except.ok last =>
    if net.resolveOk = false then (SyncOut.err, file, none)
    else if net.queryOk = false then (SyncOut.err, file, none)
    else
      let t := disambiguate net.raw last
      if net.clockOk = false then (SyncOut.err, file, none)
      else if net.writeOk = false then (SyncOut.err, file, some t)
      else (SyncOut.ok t, some (i64_to_be_bytes t), some t)

/-- `sysnow_to_disk` (main.rs lines 100-108): snapshot the current system
clock (`now`, in seconds relative to the Unix epoch) to the floor file.
`duration_since` fails for a pre-epoch clock, the `u64 → i64` conversion
fails for values of `2^63` or more, and the write itself may fail
(`writeOk`).  On success the new file contents are returned. -/
def sysnow_to_disk (now : Int) (writeOk : Bool) :
    Except Unit (List Nat) :=
  if now < 0 then Except.error ()
  else if (2:Int)^63 ≤ now then Except.error ()
  else if writeOk then Except.ok (i64_to_be_bytes now)
  else Except.error ()

/-- Orchestrator state after startup (main.rs lines 69-91): the floor file
contents and the current resync interval in seconds. -/
structure St where
  file : Option (List Nat)
  interval : Nat
deriving DecidableEq

/-- One arm of the `tokio::select!` becoming ready: either a resync tick
(with the cycle's external outcomes) or a termination signal (with the
system clock reading and the checkpoint write outcome). -/
inductive Event where
  | tick : NetInput → Event
  | sigterm : Int → Bool → Event

/-- How the loop body left the loop: keep looping, return `Ok(())`,
propagate an error out of `main`, or die from a panic. -/
inductive LoopOut where
  | next : LoopOut
  | exitOk : LoopOut
  | exitErr : LoopOut
  | panicked : LoopOut
deriving DecidableEq

/-- One iteration of the main loop (main.rs lines 72-91).  On a tick, run
`sync_time`: on success reset the interval to `INTERVAL` (line 76); on
error just log (line 82).  On SIGTERM, run `sysnow_to_disk` and return
`Ok(())` (lines 84-89); its failure is propagated by `?` (line 85). -/
def step (buildTs : Int) (s : St) (e : Event) : St × LoopOut :=
  match e with
  | Event.tick net =>
    match sync_time buildTs s.file net with
    | (SyncOut.ok _, f2, _) => (⟨f2, INTERVAL⟩, LoopOut.next)
    | (SyncOut.err, f2, _) => (⟨f2, s.interval⟩, LoopOut.next)
    | (SyncOut.panic, f2, _) => (⟨f2, s.interval⟩, LoopOut.panicked)
  | Event.sigterm now writeOk =>
    match sysnow_to_disk now writeOk with
    | Except.ok bytes => (⟨some bytes, s.interval⟩, LoopOut.exitOk)
    | Except.error _ => (s, LoopOut.exitErr)

/-- Run the main loop over a sequence of ready events, stopping as soon as
an iteration returns or panics. -/
def runLoop (buildTs : Int) (s : St) : List Event → St
  | [] => s
  | e :: rest =>
    match step buildTs s e with
    | (s2, LoopOut.next) => runLoop buildTs s2 rest
    | (s2, _) => s2

/-- The event is a tick whose sync cycle succeeds from state `s`. -/
def tickSucceeds (buildTs : Int) (s : St) (e : Event) : Prop :=
  match e with
  | Event.tick net => ∃ t, (sync_time buildTs s.file net).1 = SyncOut.ok t
  | Event.sigterm _ _ => False

/-- The specification's contract for the era disambiguator (spec §4.2):
`t` is congruent to `raw - EPOCH_OFFSET` modulo `2^32`, is at least
`floor`, and is the smallest such value. -/
def IsMinimalDisamb (raw : Nat) (floor t : Int) : Prop :=
  t % 2^32 = (((raw % 2^32 : Nat) : Int) - EPOCH_OFFSET) % 2^32 ∧
  floor ≤ t ∧
  ∀ u : Int, u % 2^32 = (((raw % 2^32 : Nat) : Int) - EPOCH_OFFSET) % 2^32 →
    floor ≤ u → t ≤ u

/-- Serializing an `i64` value to big-endian bytes and reassembling them
gives back the same value. -/
lemma i64_be_bytes_roundtrip (t : Int) (h1 : -(2:Int)^63 ≤ t) (h2 : t < 2^63) :
    i64_from_be_bytes (i64_to_be_bytes t) = t := by
  have hb : (0:Int) ≤ t % 2^64 := Int.emod_nonneg t (by norm_num)
  have hb2 : t % 2^64 < 2^64 := Int.emod_lt_of_pos t (by norm_num)
  unfold i64_to_be_bytes i64_from_be_bytes
  simp only [List.foldl]
  split_ifs with h
  · omega
  · omega

/-- C1 (counterexample): at `raw = 0` and `floor = -6503956096` the code
returns `-2208988800`, but `-6503956096` itself is congruent to
`raw - EPOCH_OFFSET` modulo `2^32`, is at least the floor, and is smaller —
so the result is not the smallest such value and the claim as stated
fails. -/
theorem disambiguate_not_minimal_low_floor :
    ¬ IsMinimalDisamb 0 (-6503956096) (disambiguate 0 (-6503956096)) := by
  intro h
  have he : disambiguate 0 (-6503956096) = -2208988800 := by
    unfold disambiguate EPOCH_OFFSET
    norm_num
    rw [eraLoop_of_not_lt (by norm_num)]
  obtain ⟨_, _, hmin⟩ := h
  have hu := hmin (-6503956096) (by decide) le_rfl
  rw [he] at hu
  norm_num at hu

/-- The idealized loop's value is the minimal congruent value above the
floor, provided the floor is not more than one era width below
`raw - EPOCH_OFFSET`. -/
lemma eraLoop_minimal_aux (raw : Nat) (floor : Int) (h1 : raw < 2^32)
    (h2 : (raw : Int) - EPOCH_OFFSET - 2^32 < floor) :
    IsMinimalDisamb raw floor
      (eraLoop (((raw % 2^32 : Nat) : Int) - EPOCH_OFFSET) floor) := by
  have hr : raw % 2^32 = raw := Nat.mod_eq_of_lt h1
  unfold IsMinimalDisamb
  rw [hr]
  refine ⟨eraLoop_mod _ _, floor_le_eraLoop _ _, ?_⟩
  intro u hu hfu
  have hmod := eraLoop_mod ((raw : Int) - EPOCH_OFFSET) floor
  by_cases hc : (raw : Int) - EPOCH_OFFSET < floor
  · have hub := eraLoop_lt_of_lt hc
    omega
  · rw [eraLoop_of_not_lt hc] at hmod ⊢
    omega

/-- C1 (amended): for every 32-bit raw timestamp `raw` and every floor
value `floor` with `raw - EPOCH_OFFSET - 2^32 < floor ≤ 2^63 - 2^32`,
the era-correction loop (run with `i64` wrapping semantics) terminates and
returns the smallest Unix epoch-seconds value `t` such that
`t ≡ raw - EPOCH_OFFSET (mod 2^32)` and `t ≥ floor`.  The upper bound
keeps the `i64` accumulator from overflowing; the lower bound rules out
the floors of `disambiguate_not_minimal_low_floor`. -/
theorem era_loop_yields_minimal (raw : Nat) (floor : Int) (h1 : raw < 2^32)
    (h2 : (raw : Int) - EPOCH_OFFSET - 2^32 < floor)
    (h3 : floor ≤ 2^63 - 2^32) :
    ∃ (n : Nat) (t : Int),
      eraLoopFuel n (((raw % 2^32 : Nat) : Int) - EPOCH_OFFSET) floor =
        some t ∧
      IsMinimalDisamb raw floor t := by
  obtain ⟨n, hn⟩ :=
    eraLoopFuel_agrees (((raw % 2^32 : Nat) : Int) - EPOCH_OFFSET) floor
      (by simp only [EPOCH_OFFSET]; omega) h3
  exact ⟨n, _, hn, eraLoop_minimal_aux raw floor h1 h2⟩

/-- Witness for `era_loop_yields_minimal` at `raw = 0`, `floor = 0`. -/
theorem era_loop_yields_minimal_witness :
    ((0:Nat) < 2^32 ∧ (0:Int) - EPOCH_OFFSET - 2^32 < 0 ∧
        (0:Int) ≤ 2^63 - 2^32) ∧
      ∃ (n : Nat) (t : Int),
        eraLoopFuel n (((0 % 2^32 : Nat) : Int) - EPOCH_OFFSET) 0 = some t ∧
        IsMinimalDisamb 0 0 t :=
  ⟨⟨by norm_num, by norm_num [EPOCH_OFFSET], by norm_num⟩,
    era_loop_yields_minimal 0 0 (by norm_num) (by norm_num [EPOCH_OFFSET])
      (by norm_num)⟩

/-- C2 (counterexample): at `raw = 0` and `floor = 2^63 - 2` (decodable
from a hostile 8-byte floor file) the `i64` era loop never yields any
result at all — with any fuel it is still running — so no disambiguated
result exists to satisfy the claimed bounds. -/
theorem era_loop_bounds_no_result :
    ¬ ∃ (n : Nat) (t : Int),
      eraLoopFuel n (((0 % 2^32 : Nat) : Int) - EPOCH_OFFSET) (2^63 - 2) =
          some t ∧
        ((2:Int)^63 - 2 ≤ t ∧ t - ((2:Int)^63 - 2) < 2^32) := by
  rintro ⟨n, t, h, _⟩
  rw [eraLoopFuel_stuck n _ _ (by decide) (by decide) (by decide)] at h
  exact Option.noConfusion h

/-- C2 (amended): for every floor and every 32-bit raw value with
`raw - EPOCH_OFFSET < floor`, any result the era-correction loop (run
with `i64` wrapping semantics) yields satisfies `t ≥ floor` and
`t - floor < 2^32`. -/
theorem era_loop_result_bounds (raw : Nat) (floor t : Int) (n : Nat)
    (h1 : raw < 2^32) (h2 : (raw : Int) - EPOCH_OFFSET < floor)
    (h3 : eraLoopFuel n (((raw % 2^32 : Nat) : Int) - EPOCH_OFFSET) floor =
      some t) :
    floor ≤ t ∧ t - floor < 2^32 := by
  have hr : raw % 2^32 = raw := Nat.mod_eq_of_lt h1
  rw [hr] at h3
  exact eraLoopFuel_bounds n ((raw : Int) - EPOCH_OFFSET) floor t
    (by simp only [EPOCH_OFFSET]; omega) h2 h3

/-- Witness for `era_loop_result_bounds` at `raw = 0`, `floor = 1`, where
one wrapped-free addition exits with `2085978496`. -/
theorem era_loop_result_bounds_witness :
    ((0:Nat) < 2^32 ∧ (0:Int) - EPOCH_OFFSET < 1 ∧
        eraLoopFuel 1 (((0 % 2^32 : Nat) : Int) - EPOCH_OFFSET) 1 =
          some 2085978496) ∧
      ((1:Int) ≤ 2085978496 ∧ (2085978496:Int) - 1 < 2^32) :=
  ⟨⟨by norm_num, by norm_num [EPOCH_OFFSET], by decide⟩,
    era_loop_result_bounds 0 1 2085978496 1 (by norm_num)
      (by norm_num [EPOCH_OFFSET]) (by decide)⟩

/-- C3: for every floor and every 32-bit raw value with
`raw - EPOCH_OFFSET ≥ floor`, the disambiguator returns exactly
`raw - EPOCH_OFFSET`, applying no correction. -/
theorem disambiguate_no_correction (raw : Nat) (floor : Int) (h1 : raw < 2^32)
    (h2 : floor ≤ (raw : Int) - EPOCH_OFFSET) :
    disambiguate raw floor = (raw : Int) - EPOCH_OFFSET := by
  have hr : raw % 2^32 = raw := Nat.mod_eq_of_lt h1
  unfold disambiguate
  rw [hr, eraLoop_of_not_lt (by omega)]

/-- Witness for `disambiguate_no_correction` at `raw = 2208988800`,
`floor = 0`. -/
theorem disambiguate_no_correction_witness :
    ((2208988800:Nat) < 2^32 ∧ (0:Int) ≤ (2208988800 : Int) - EPOCH_OFFSET) ∧
      disambiguate 2208988800 0 = (2208988800 : Int) - EPOCH_OFFSET :=
  ⟨⟨by norm_num, by norm_num [EPOCH_OFFSET]⟩,
    disambiguate_no_correction 2208988800 0 (by norm_num)
      (by norm_num [EPOCH_OFFSET])⟩

/-- C4 (counterexample): at `raw = 0` and `floor = 2^63 - 1` (i64::MAX,
decodable from a hostile 8-byte floor file) the `i64` era-correction loop
never terminates: every `i64` value congruent to `raw - EPOCH_OFFSET`
modulo `2^32` is below the floor, so the wrapping loop condition holds
forever and no fuel makes it exit (a debug build instead panics at the
first overflowing addition). -/
theorem era_loop_no_exit_at_max_floor :
    ¬ ∃ (n : Nat) (t : Int),
      eraLoopFuel n (((0 % 2^32 : Nat) : Int) - EPOCH_OFFSET) (2^63 - 1) =
        some t := by
  rintro ⟨n, t, h⟩
  rw [eraLoopFuel_stuck n _ _ (by decide) (by decide) (by decide)] at h
  exact Option.noConfusion h

/-- C4 (amended): for every raw timestamp and every floor value at most
`2^63 - 2^32` — the range in which the `i64` accumulator cannot overflow —
the era-correction loop terminates; and one addition can be insufficient:
at `raw = 0`, `floor = 6000000000` a single allowed addition still leaves
the loop running, so termination covers cases needing several
additions. -/
theorem era_loop_terminates_no_wrap :
    (∀ (raw : Nat) (floor : Int), floor ≤ 2^63 - 2^32 →
      ∃ (n : Nat) (t : Int),
        eraLoopFuel n (((raw % 2^32 : Nat) : Int) - EPOCH_OFFSET) floor =
          some t) ∧
    eraLoopFuel 1 (((0 % 2^32 : Nat) : Int) - EPOCH_OFFSET) 6000000000 =
      none := by
  constructor
  · intro raw floor hf
    obtain ⟨n, hn⟩ :=
      eraLoopFuel_agrees (((raw % 2^32 : Nat) : Int) - EPOCH_OFFSET) floor
        (by simp only [EPOCH_OFFSET]; omega) hf
    exact ⟨n, _, hn⟩
  · decide

/-- Witness for `era_loop_terminates_no_wrap` at `raw = 0`,
`floor = 6000000000`, a floor needing two additions. -/
theorem era_loop_terminates_no_wrap_witness :
    ((6000000000:Int) ≤ 2^63 - 2^32) ∧
      ∃ (n : Nat) (t : Int),
        eraLoopFuel n (((0 % 2^32 : Nat) : Int) - EPOCH_OFFSET) 6000000000 =
          some t :=
  ⟨by norm_num, era_loop_terminates_no_wrap.1 0 6000000000 (by norm_num)⟩

/-- C5: `last_time_unix` does return `None` when the file is missing or
unreadable, but a file truncated to fewer than 8 bytes makes the slice
`[..8]` panic instead of returning `None` — shown here on a 4-byte file. -/
theorem last_time_unix_truncated_panics :
    last_time_unix none = Except.ok none ∧
    last_time_unix (some [0, 0, 0, 0]) = Except.error () := by
  exact ⟨rfl, rfl⟩

/-- C6: when the floor file is missing the sync cycle does fall back to the
build-time constant and the disambiguated result is never below it; but a
corrupt (truncated) file panics instead of falling back — shown here on a
3-byte file. -/
theorem sync_floor_fallback_and_truncated_panics :
    (∀ (buildTs : Int) (raw : Nat),
      sync_floor buildTs none = Except.ok buildTs ∧
      buildTs ≤ disambiguate raw buildTs) ∧
    sync_floor 0 (some [1, 2, 3]) = Except.error () := by
  exact ⟨fun buildTs raw => ⟨rfl, floor_le_eraLoop _ _⟩, rfl⟩

/-- C7: saving an epoch-seconds value as 8 big-endian bytes and then
loading the file returns `Some` of the same value. -/
theorem save_load_roundtrip (t : Int) (h1 : -(2:Int)^63 ≤ t) (h2 : t < 2^63) :
    last_time_unix (some (i64_to_be_bytes t)) = Except.ok (some t) := by
  have hlen : ¬ (i64_to_be_bytes t).length < 8 := by simp [i64_to_be_bytes]
  have htake : (i64_to_be_bytes t).take 8 = i64_to_be_bytes t := by
    simp [i64_to_be_bytes]
  simp [last_time_unix, hlen, htake, i64_be_bytes_roundtrip t h1 h2]

/-- Witness for `save_load_roundtrip` at `t = 1700000000`. -/
theorem save_load_roundtrip_witness :
    (-(2:Int)^63 ≤ 1700000000 ∧ (1700000000:Int) < 2^63) ∧
      last_time_unix (some (i64_to_be_bytes 1700000000)) =
        Except.ok (some 1700000000) :=
  ⟨⟨by norm_num, by norm_num⟩,
    save_load_roundtrip 1700000000 (by norm_num) (by norm_num)⟩

/-- C8: when a termination signal is handled (with the checkpoint write
succeeding), the floor file is overwritten with the current system clock
reading and the loop returns `Ok(())`, whatever the preceding state —
in particular regardless of whether the last sync cycle succeeded. -/
theorem sigterm_checkpoints_and_exits_ok (buildTs : Int) (s : St) (now : Int)
    (h1 : 0 ≤ now) (h2 : now < 2^63) :
    (step buildTs s (Event.sigterm now true)).1.file =
      some (i64_to_be_bytes now) ∧
    (step buildTs s (Event.sigterm now true)).2 = LoopOut.exitOk := by
  have hs : sysnow_to_disk now true = Except.ok (i64_to_be_bytes now) := by
    unfold sysnow_to_disk
    rw [if_neg (by omega), if_neg (by omega), if_pos rfl]
  simp [step, hs]

/-- Witness for `sigterm_checkpoints_and_exits_ok` at
`buildTs = 0`, `s = ⟨none, 30⟩`, `now = 1700000000`. -/
theorem sigterm_checkpoints_and_exits_ok_witness :
    ((0:Int) ≤ 1700000000 ∧ (1700000000:Int) < 2^63) ∧
      ((step 0 ⟨none, 30⟩ (Event.sigterm 1700000000 true)).1.file =
          some (i64_to_be_bytes 1700000000) ∧
        (step 0 ⟨none, 30⟩ (Event.sigterm 1700000000 true)).2 =
          LoopOut.exitOk) :=
  ⟨⟨by norm_num, by norm_num⟩,
    sigterm_checkpoints_and_exits_ok 0 ⟨none, 30⟩ 1700000000 (by norm_num)
      (by norm_num)⟩

/-- A step from the steady-state interval never leaves it. -/
lemma step_preserves_steady (buildTs : Int) (s : St) (e : Event)
    (h : s.interval = INTERVAL) : (step buildTs s e).1.interval = INTERVAL := by
  cases e with
  | tick net =>
    rcases hs : sync_time buildTs s.file net with ⟨_ | _ | t, f2, clk⟩ <;>
      simp [step, hs, h]
  | sigterm now writeOk =>
    rcases hw : sysnow_to_disk now writeOk with _ | bytes <;>
      simp [step, hw, h]

/-- Running any suffix of the loop from the steady-state interval never
leaves it. -/
lemma runLoop_preserves_steady (buildTs : Int) (s : St) (evs : List Event)
    (h : s.interval = INTERVAL) :
    (runLoop buildTs s evs).interval = INTERVAL := by
  induction evs generalizing s with
  | nil => exact h
  | cons e rest ih =>
    have hstep : (step buildTs s e).1.interval = INTERVAL :=
      step_preserves_steady buildTs s e h
    unfold runLoop
    rcases hst : step buildTs s e with ⟨s2, o⟩
    rw [hst] at hstep
    cases o
    · exact ih s2 hstep
    · exact hstep
    · exact hstep
    · exact hstep

/-- C9: the resync interval moves from the short initial value to the long
steady-state value exactly on a successful sync — from the steady interval
every step (success, failure, panic or signal) stays steady, a run over any
further events stays steady, and from the fast interval a step lands on the
steady interval if and only if its tick's sync cycle succeeded. -/
theorem interval_switches_once (buildTs : Int) (s : St) (e : Event) :
    (s.interval = INTERVAL → (step buildTs s e).1.interval = INTERVAL) ∧
    (s.interval = INITIAL_INTERVAL →
      ((step buildTs s e).1.interval = INTERVAL ↔ tickSucceeds buildTs s e)) ∧
    (∀ evs : List Event, s.interval = INTERVAL →
      (runLoop buildTs s evs).interval = INTERVAL) := by
  refine ⟨step_preserves_steady buildTs s e, ?_,
    fun evs h => runLoop_preserves_steady buildTs s evs h⟩
  intro h
  cases e with
  | tick net =>
    rcases hs : sync_time buildTs s.file net with ⟨_ | _ | t, f2, clk⟩ <;>
      simp [step, hs, h, tickSucceeds, INTERVAL, INITIAL_INTERVAL]
  | sigterm now writeOk =>
    rcases hw : sysnow_to_disk now writeOk with _ | bytes <;>
      simp [step, hw, h, tickSucceeds, INTERVAL, INITIAL_INTERVAL]

/-- Witness for `interval_switches_once`: steady stays steady on a signal
step, a fast-interval signal step does not switch (its tick did not
succeed), and an empty steady run stays steady. -/
theorem interval_switches_once_witness :
    (step 0 ⟨none, INTERVAL⟩ (Event.sigterm 0 true)).1.interval = INTERVAL ∧
    ((step 0 ⟨none, INITIAL_INTERVAL⟩ (Event.sigterm 0 true)).1.interval =
        INTERVAL ↔
      tickSucceeds 0 ⟨none, INITIAL_INTERVAL⟩ (Event.sigterm 0 true)) ∧
    (runLoop 0 ⟨none, INTERVAL⟩ []).interval = INTERVAL :=
  ⟨(interval_switches_once 0 ⟨none, INTERVAL⟩ (Event.sigterm 0 true)).1 rfl,
    (interval_switches_once 0 ⟨none, INITIAL_INTERVAL⟩
      (Event.sigterm 0 true)).2.1 rfl,
    (interval_switches_once 0 ⟨none, INTERVAL⟩ (Event.sigterm 0 true)).2.2
      [] rfl⟩

/-- C10: when a sync cycle succeeds with committed time `t`, the floor file
afterwards holds exactly the 8 big-endian bytes of `t`, the very value set
on the OS clock; and the file is untouched when resolution, the time query,
or the clock commit fails. -/
theorem sync_persist_matches_clock (buildTs : Int) (file : Option (List Nat))
    (net : NetInput) :
    (∀ t : Int, (sync_time buildTs file net).1 = SyncOut.ok t →
      (sync_time buildTs file net).2.1 = some (i64_to_be_bytes t) ∧
      (sync_time buildTs file net).2.2 = some t) ∧
    ((net.resolveOk = false ∨ net.queryOk = false ∨ net.clockOk = false) →
      (sync_time buildTs file net).2.1 = file) := by
  rcases hf : sync_floor buildTs file with u | last
  · simp [sync_time, hf]
  · by_cases h1 : net.resolveOk = false
    · simp [sync_time, hf, h1]
    · by_cases h2 : net.queryOk = false
      · simp [sync_time, hf, h1, h2]
      · by_cases h3 : net.clockOk = false
        · simp [sync_time, hf, h1, h2, h3]
        · by_cases h4 : net.writeOk = false <;>
            simp [sync_time, hf, h1, h2, h3, h4]

/-- Witness for `sync_persist_matches_clock`: a fully successful cycle from
an absent floor file with build floor `0` and raw value `2208988800`
commits `t = 0` and persists its bytes; a cycle whose resolution fails
leaves the absent file absent. -/
theorem sync_persist_matches_clock_witness :
    ((sync_time 0 none ⟨true, true, 2208988800, true, true⟩).2.1 =
        some (i64_to_be_bytes 0) ∧
      (sync_time 0 none ⟨true, true, 2208988800, true, true⟩).2.2 = some 0) ∧
    (sync_time 0 none ⟨false, true, 0, true, true⟩).2.1 = none := by
  have hd : disambiguate 2208988800 0 = 0 := by
    unfold disambiguate EPOCH_OFFSET
    norm_num
    exact eraLoop_of_not_lt (by norm_num)
  refine ⟨(sync_persist_matches_clock 0 none ⟨true, true, 2208988800, true,
    true⟩).1 0 ?_, (sync_persist_matches_clock 0 none ⟨false, true, 0, true,
    true⟩).2 (Or.inl rfl)⟩
  simp [sync_time, sync_floor, last_time_unix, hd]

end Ntp
